import Mathlib

/-!
Shallow embedding of the qri repository core: the request-handler layer
(DatasetRequests, HistoryRequests, PeerRequests), the pagination
parameters, and the repository state they operate on.

Conventions of the embedding:
* Go strings are Lean `String`; `datastore.Key` values are modelled as
  their slash-separated segment lists (`Key := List String`), with
  `keyStr` recovering the Go `Key.String()` rendering and the zero key
  rendered as the empty list.
* Machine integers that the code compares and decrements (`Limit`,
  `Offset`) are `Int`.
* Fallible Go functions returning `error` become `Except String`
  values carrying the error message built exactly as the source builds
  it; repository mutation is explicit state passing over `RepoState`.
* External collaborators that are out of scope for the repository
  (the dataset format-detection/validation library, the content store)
  are modelled from the spec where the source only calls them; each
  such definition is marked `Modelled from the spec:`.
-/

/-- Structural splitter over character lists (model of splitting a Go
string on a separator byte); always returns a non-empty list of groups. -/
def splitOnChar (sep : Char) : List Char → List (List Char)
  | [] => [[]]
  | c :: rest =>
    match splitOnChar sep rest with
    | [] => [[]]
    | g :: gs => if c = sep then [] :: g :: gs else (c :: g) :: gs

/-- Split a string into pieces between occurrences of `sep`. -/
def strSplit (sep : Char) (s : String) : List String :=
  (splitOnChar sep s.data).map (fun l => String.mk l)

/-- Character class allowed inside a dataset name. -/
def validNameChar (c : Char) : Bool := c.isAlpha || c.isDigit || c = '_'

/-- validate.ValidName. Modelled from the spec: a name must match
the pattern letter-or-underscore followed by letters, digits and
underscores. -/
def validName (s : String) : Bool :=
  match s.data with
  | [] => false
  | c :: rest => (c.isAlpha || c = '_') && rest.all validNameChar

/-- Remove the final extension of a filename (the part after the last
dot), keeping the filename unchanged when it has no dot. -/
def removeExtension (f : String) : String :=
  match splitOnChar '.' f.data with
  | [] => f
  | [_] => f
  | parts => String.mk ((parts.dropLast.intersperse ['.']).flatten)

/-- detect.Camelize / CoerceDatasetName. Modelled from the spec: strip
the file extension, lower-case, and replace characters outside the name
alphabet with an underscore. -/
def camelize (f : String) : String :=
  String.mk ((removeExtension f).data.map
    (fun c => let c := c.toLower; if validNameChar c then c else '_'))

/-- Content paths: a datastore key as its slash-separated segments. -/
abbrev Key := List String

/-- Go `Key.String()`: each segment preceded by a slash; zero key is "". -/
def keyStr (k : Key) : String :=
  k.foldr (fun seg acc => "/" ++ seg ++ acc) ""

/-- dsfs.PackageFileDataset: the package file name of a saved dataset. -/
def packageFileDataset : String := "dataset.json"

/-- Whether the key's final segment is the dataset package file, i.e.
whether `keyStr k` has the trailing package-file suffix. -/
def hasPkgTail : Key → Bool
  | [] => false
  | [s] => s = packageFileDataset
  | _ :: rest => hasPkgTail rest

/-- Trim the trailing package-file segment off a key when present
(Go: strings.TrimSuffix(path, "/" + PackageFileDataset)). -/
def stripPkg (k : Key) : Key := if hasPkgTail k then k.dropLast else k

/-- Unary rendering of a natural number; an injective, structural stand-in
for the decimal rendering used when serializing numeric fields. -/
def natStr (n : Nat) : String := String.mk (List.replicate n 'I')

/-- dataset.Dataset: the versioned payload. `dataKey` carries the Go
`Data` string field (a content key rendered as a string), `struct` the
structure descriptor's field names, `previous` the prior revision's
content key (empty for a root revision). -/
structure Dataset where
  title : String := ""
  downloadURL : String := ""
  accrualPeriodicity : String := ""
  timestamp : Nat := 0
  dataKey : String := ""
  length : Nat := 0
  struct : List String := []
  previous : Key := []
  deriving Repr, DecidableEq

/-- repo.DatasetRef: a resolved pointer (mutable alias, content path,
optionally hydrated record). -/
structure DatasetRef where
  name : String := ""
  path : Key := []
  dataset : Option Dataset := none
  deriving Repr, DecidableEq

/-- repo.ErrNotFound. -/
def errNotFound : String := "repo: not found"

/-- repo.ErrNameTaken. -/
def errNameTaken : String := "repo: name already in use"

/-- The repository state: the Namestore's bindings in insertion order,
the Datasets store, the content store's saved dataset records (what
dsfs.SaveDataset wrote and dsfs.LoadDataset reads back), and the raw
data blobs. -/
structure RepoState where
  namestore : List (String × Key) := []
  datasets : List (Key × Dataset) := []
  saved : List (Key × Dataset) := []
  blobs : List (Key × String) := []
  deriving Repr, DecidableEq

/-- Exact-match lookup in an association list keyed by name. -/
def lookupName : List (String × Key) → String → Option Key
  | [], _ => none
  | (m, k) :: rest, n => if m = n then some k else lookupName rest n

/-- First name bound to a given path; empty string when none is bound. -/
def lookupPath : List (String × Key) → Key → String
  | [], _ => ""
  | (m, k) :: rest, q => if k = q then m else lookupPath rest q

/-- Exact-match lookup in an association list keyed by content path. -/
def lookupDs : List (Key × Dataset) → Key → Option Dataset
  | [], _ => none
  | (k, d) :: rest, q => if k = q then some d else lookupDs rest q

/-- Namestore.GetPath. Modelled from the spec: exact-match lookup,
not-found when the name is unbound. -/
def getPath (s : RepoState) (n : String) : Except String Key :=
  match lookupName s.namestore n with
  | some k => .ok k
  | none => .error errNotFound

/-- Namestore.GetName. Modelled from the spec: returns the empty string
(not an error) when no name is bound to the path. -/
def getNameOf (s : RepoState) (k : Key) : String := lookupPath s.namestore k

/-- Namestore.PutName. Modelled from the spec: fails when the name is
invalid or already bound, otherwise appends the binding. -/
def putName (s : RepoState) (n : String) (k : Key) : Except String RepoState :=
  if validName n = false then .error "error: illegal name"
  else match lookupName s.namestore n with
    | some _ => .error errNameTaken
    | none => .ok { s with namestore := s.namestore ++ [(n, k)] }

/-- Namestore.DeleteName. Modelled from the spec: removes the binding;
the absent-name case is taken as a silent no-op (the open-question
choice that keeps every claim's scenario deterministic). -/
def deleteName (s : RepoState) (n : String) : RepoState :=
  { s with namestore := s.namestore.filter (fun e => e.1 ≠ n) }

/-- Datasets.GetDataset as a lookup of the repo's dataset store. -/
def getDataset (s : RepoState) (k : Key) : Option Dataset :=
  lookupDs s.datasets k

/-- Datasets.PutDataset: record the dataset under its content path. -/
def putDataset (s : RepoState) (k : Key) (ds : Dataset) : RepoState :=
  { s with datasets := (k, ds) :: s.datasets }

/-- Content store Put of a raw data payload. Modelled from the spec:
content-addressed, so the key is derived injectively from the bytes. -/
def putBlob (s : RepoState) (content : String) : Key × RepoState :=
  let k : Key := ["map", "data:" ++ content]
  (k, { s with blobs := (k, content) :: s.blobs })

/-- Injective serialization of a dataset record, used to derive its
content address. Modelled from the spec: records are content-addressed,
so any injective encoding is a faithful stand-in for the real one. -/
def encodeDataset (ds : Dataset) : String :=
  ds.title ++ "|" ++ ds.downloadURL ++ "|" ++ ds.accrualPeriodicity ++ "|"
    ++ natStr ds.timestamp ++ "|" ++ ds.dataKey ++ "|" ++ natStr ds.length ++ "|"
    ++ String.mk ((ds.struct.map String.data).intersperse [';'] |>.flatten)
    ++ "|" ++ keyStr ds.previous ++ "|qridsv1"

/-- The content address dsfs.SaveDataset assigns to a record. -/
def dsKeyOf (ds : Dataset) : Key := ["map", "ds:" ++ encodeDataset ds]

/-- dsfs.SaveDataset. Modelled from the spec: persists the record at its
content address and returns that address. -/
def saveDataset (s : RepoState) (ds : Dataset) : Key × RepoState :=
  let k := dsKeyOf ds
  (k, { s with saved := (k, ds) :: s.saved })

/-- dsfs.LoadDataset: read a saved record back from the content store. -/
def loadDataset (s : RepoState) (k : Key) : Except String Dataset :=
  match lookupDs s.saved k with
  | some ds => .ok ds
  | none => .error ("error getting file bytes: datastore: key not found")

/-- repo.HasPath duplication guard. Modelled from the spec: identical
content already exists when some stored dataset record references the
same data key. -/
def hasPathDs (s : RepoState) (dataKey : Key) : Bool :=
  s.datasets.any (fun kd => kd.2.dataKey = keyStr dataKey)

/-- Serialization formats the format sniffer knows. Modelled from the
spec: CSV/JSON sniffing is the external detection library's job. -/
inductive DataFormat where
  | csv
  | json
  deriving Repr, DecidableEq

/-- detect.ExtensionDataFormat. Modelled from the spec: derive the
format from the filename extension, failing when there is none. -/
def extensionDataFormat (filename : String) : Except String DataFormat :=
  match splitOnChar '.' filename.data with
  | [] => .error "no file extension provided"
  | [_] => .error "no file extension provided"
  | parts =>
    match parts.getLast? with
    | some ['c', 's', 'v'] => .ok .csv
    | some ['j', 's', 'o', 'n'] => .ok .json
    | _ => .error "unsupported file type"

/-- Lines of a payload, ignoring empty lines. -/
def payloadRows (data : String) : List (List Char) :=
  (splitOnChar '\n' data.data).filter (fun l => l ≠ [])

/-- validate.DataFormat. Modelled from the spec: a CSV payload is
well-formed when it has a first row and every row has the first row's
column count; JSON well-formedness is not further constrained here. -/
def dataFormatOk (fmt : DataFormat) (data : String) : Bool :=
  match fmt with
  | .json => true
  | .csv =>
    match payloadRows data with
    | [] => false
    | header :: rest =>
      rest.all (fun r => (splitOnChar ',' r).length = (splitOnChar ',' header).length)

/-- Normalization the schema sniffer applies to a raw column header. -/
def coerceFieldName (l : List Char) : String :=
  String.mk ((l.filter (fun c => c ≠ ' ')).map Char.toLower)

/-- detect.FromReader schema inference. Modelled from the spec: the
inferred structure's field names are the (normalized) first-row column
headers for CSV, and empty for JSON. -/
def detectSchema (fmt : DataFormat) (data : String) : List String :=
  match fmt with
  | .json => []
  | .csv =>
    match payloadRows data with
    | [] => []
    | header :: _ => (splitOnChar ',' header).map coerceFieldName

/-- Does a field-name list use some name more than once? -/
def hasDupNames : List String → Bool
  | [] => false
  | f :: rest => rest.contains f || hasDupNames rest

/-- validate.Structure. Modelled from the spec: fails exactly when two
columns share a name. -/
def validStructure (fields : List String) : Except String Unit :=
  if hasDupNames fields then .error "duplicate column name" else .ok ()

/-- dataset.Dataset.Assign(prev, changes). Modelled from the spec:
changed (non-zero) fields of `changes` overwrite, unset fields inherit
from `prev`. -/
def assignDs (prev changes : Dataset) : Dataset where
  title := if changes.title ≠ "" then changes.title else prev.title
  downloadURL := if changes.downloadURL ≠ "" then changes.downloadURL else prev.downloadURL
  accrualPeriodicity :=
    if changes.accrualPeriodicity ≠ "" then changes.accrualPeriodicity else prev.accrualPeriodicity
  timestamp := if changes.timestamp ≠ 0 then changes.timestamp else prev.timestamp
  dataKey := if changes.dataKey ≠ "" then changes.dataKey else prev.dataKey
  length := if changes.length ≠ 0 then changes.length else prev.length
  struct := if changes.struct ≠ [] then changes.struct else prev.struct
  previous := if changes.previous ≠ [] then changes.previous else prev.previous

/-- dsfs.RefType. Modelled from the spec: a reference that parses as a
bare name token is a "name"; anything else is a "path" whose cleaned
form has any trailing package-file suffix normalized away. -/
def refType (k : Key) : String × Key :=
  match k with
  | [n] => if validName n then ("name", k) else ("path", stripPkg k)
  | _ => ("path", stripPkg k)

/-- core.DefaultPageSize. -/
def defaultPageSize : Int := 100

/-- core.ListParams: limits and offsets for paginated requests. -/
structure ListParams where
  orderBy : String := ""
  Limit : Int := 0
  Offset : Int := 0
  deriving Repr, DecidableEq

/-- core.NewListParams: build a ListParams from a 1-indexed page and a
page size, coercing out-of-range inputs. -/
def newListParams (orderBy : String) (page pageSize : Int) : ListParams :=
  let page := if page < 1 then 1 else page
  let pageSize := if pageSize ≤ 0 then defaultPageSize else pageSize
  { orderBy := orderBy, Limit := pageSize, Offset := (page - 1) * pageSize }

/-- util.Page: the external 1-indexed pagination shape. -/
structure PageInfo where
  number : Int
  size : Int
  deriving Repr, DecidableEq

/-- ListParams.Page: convert back to the 1-indexed page shape, using
Go's truncated integer division. -/
def ListParams.page (lp : ListParams) : PageInfo :=
  let size := if lp.Limit ≤ 0 then defaultPageSize else lp.Limit
  { number := Int.tdiv lp.Offset size + 1, size := size }

/-- core.InitDatasetParams. `data` is the fully-read byte stream,
`metadata` the decoded metadata stream: `none` when absent, an error
when the stream is not valid JSON, and otherwise the field overrides it
applies to the record under assembly. -/
structure InitDatasetParams where
  name : String := ""
  url : String := ""
  dataFilename : String := ""
  data : Option String := none
  metadata : Option (Except String (Dataset → Dataset)) := none

/-- Base component of a URL path (filepath.Base). -/
def baseName (url : String) : String :=
  match (splitOnChar '/' url.data).getLast? with
  | some l => String.mk l
  | none => url

/-- The filename InitDataset detects formats from: the URL's base name
when fetching, the caller's data filename otherwise. -/
def initFilename (p : InitDatasetParams) : String :=
  if p.url ≠ "" then baseName p.url else p.dataFilename

/-- The record-assembly tail of InitDataset, applied to the
metadata-merged record: stamp the fresh UTC timestamp, default the
title to the bound name, point at the stored payload, and install the
inferred structure when none was set. -/
def assembleInitRecord (now : Nat) (nm dataPathStr : String)
    (fields : List String) (ds1 : Dataset) : Dataset :=
  let ds2 := { ds1 with timestamp := now }
  let ds3 := if ds2.title = "" then { ds2 with title := nm } else ds2
  let ds4 := { ds3 with dataKey := dataPathStr }
  { ds4 with struct := if ds4.struct ≠ [] then ds4.struct else fields }

/-- Steps of DatasetRequests.InitDataset after the source bytes are in
memory: validate the name, detect and validate the format, infer and
validate the structure, store the payload, guard against duplicate
content, assemble and persist the record, bind the name, and re-load. -/
def initDatasetBody (s : RepoState) (now : Nat) (p : InitDatasetParams)
    (filename : String) (data : String) : Except String DatasetRef × RepoState :=
  if p.name ≠ "" ∧ validName p.name = false then
    (.error "invalid name: error: illegal name", s)
  else match extensionDataFormat filename with
  | .error e => (.error ("error detecting format extension: " ++ e), s)
  | .ok fmt =>
    if dataFormatOk fmt data = false then
      (.error "invalid data format: malformed payload", s)
    else
      let fields := detectSchema fmt data
      match validStructure fields with
      | .error e => (.error ("invalid structure: " ++ e), s)
      | .ok _ =>
        if dataFormatOk fmt data = false then
          (.error "invalid data format: malformed payload", s)
        else
          let (datakey, s1) := putBlob s data
          if hasPathDs s1 datakey then (.error "this data already exists", s1)
          else
            let name := if p.name = "" ∧ filename ≠ "" then camelize filename else p.name
            let ds0 : Dataset :=
              if p.url ≠ "" then
                { downloadURL := p.url, accrualPeriodicity := "R/P1W" }
              else {}
            match (match p.metadata with
                   | none => Except.ok ds0
                   | some (.error e) => .error e
                   | some (.ok f) => .ok (f ds0) : Except String Dataset) with
            | .error e => (.error ("error parsing metadata json: " ++ e), s1)
            | .ok ds1 =>
              let ds5 := assembleInitRecord now name (keyStr datakey) fields ds1
              let (dskey, s2) := saveDataset s1 ds5
              let s3 := putDataset s2 dskey ds5
              match putName s3 name dskey with
              | .error e => (.error ("error adding dataset name to repo: " ++ e), s3)
              | .ok s4 =>
                match getDataset s4 dskey with
                | none => (.error ("error reading dataset: " ++ errNotFound), s4)
                | some dsR => (.ok { name := p.name, path := dskey, dataset := some dsR }, s4)

/-- DatasetRequests.InitDataset (local branch): resolve the source bytes
from the URL fetcher or the supplied stream, then run the body. -/
def initDataset (s : RepoState) (now : Nat) (fetch : String → Except String String)
    (p : InitDatasetParams) : Except String DatasetRef × RepoState :=
  if p.url ≠ "" then
    match fetch p.url with
    | .error e => (.error ("error fetching url: " ++ e), s)
    | .ok bytes => initDatasetBody s now p (baseName p.url) bytes
  else match p.data with
  | some bytes => initDatasetBody s now p p.dataFilename bytes
  | none => (.error "either a file or a url is required to create a dataset", s)

/-- core.UpdateParams. -/
structure UpdateParams where
  changes : Dataset
  dataFilename : String := ""
  data : Option String := none
  deriving Repr, DecidableEq

/-- The Previous-reference disambiguation step of DatasetRequests.Update:
a bare name token is resolved through the Namestore (failing when it
cannot be resolved); anything else is the content path itself, with the
name looked up best-effort for the later rebinding. -/
def resolvePrevious (s : RepoState) (k : Key) : Except String (String × Key) :=
  match refType k with
  | ("name", r) =>
    match getPath s (String.join r) with
    | .error e => .error ("error getting previous dataset path: " ++ e)
    | .ok pp => .ok (String.join r, pp)
  | (_, r) => .ok (getNameOf s r, r)

/-- DatasetRequests.Update (local branch): resolve the previous
reference, merge the changes onto the previous record, optionally store
a new data payload (the source consumes the stream before handing the
same reader to the store, so the stored content is empty while the
recorded length is the full stream's), set Previous to the prior path
with any trailing package-file suffix trimmed, stamp a new timestamp,
persist, and rebind the name when one was carried. -/
def update (s : RepoState) (now : Nat) (p : UpdateParams) :
    Except String DatasetRef × RepoState :=
  match resolvePrevious s p.changes.previous with
  | .error e => (.error e, s)
  | .ok (name, prevpath) =>
    match getDataset s prevpath with
    | none => (.error ("error getting previous dataset: " ++ errNotFound), s)
    | some prev =>
      let ds := assignDs prev p.changes
      let step :=
        match p.data with
        | none => (ds, s)
        | some bytes =>
          let (bk, s1) := putBlob s ""
          ({ ds with dataKey := keyStr bk, length := bytes.length }, s1)
      let ds1 := step.1
      let s1 := step.2
      let ds2 := { ds1 with previous := stripPkg prevpath }
      let ds3 := { ds2 with timestamp := now }
      let save := saveDataset s1 ds3
      let dspath := save.1
      let s2 := save.2
      if name ≠ "" then
        let s3 := deleteName s2 name
        match putName s3 name dspath with
        | .error e => (.error e, s3)
        | .ok s4 => (.ok { name := name, path := dspath, dataset := some ds3 }, s4)
      else
        (.ok { name := name, path := dspath, dataset := some ds3 }, s2)

/-- core.RenameParams. -/
structure RenameParams where
  current : String := ""
  new : String := ""
  deriving Repr, DecidableEq

/-- DatasetRequests.Rename (local branch): require a current name,
validate the new one, refuse a bound destination, resolve the current
name, swap the binding, and return the dataset loaded at the path under
the new name. -/
def rename (s : RepoState) (p : RenameParams) : Except String DatasetRef × RepoState :=
  if p.current = "" then
    (.error "current name is required to rename a dataset", s)
  else if validName p.new = false then
    (.error "error: illegal name", s)
  else
    match getPath s p.new with
    | .ok _ => (.error ("name " ++ p.new ++ " already exists"), s)
    | .error e =>
      if e ≠ errNotFound then (.error ("name " ++ p.new ++ " already exists"), s)
      else
        match getPath s p.current with
        | .error e => (.error ("error getting dataset: " ++ e), s)
        | .ok path =>
          let s1 := deleteName s p.current
          match putName s1 p.new path with
          | .error e => (.error e, s1)
          | .ok s2 =>
            match loadDataset s2 path with
            | .error e => (.error e, s2)
            | .ok ds => (.ok { name := p.new, path := path, dataset := some ds }, s2)

/-- The namespace page DatasetRequests.List asks the repo for: the
name-to-path bindings in insertion order, windowed by limit and offset,
as unhydrated refs. Modelled from the spec for the Namestore side. -/
def namespacePage (s : RepoState) (limit offset : Int) : List DatasetRef :=
  ((s.namestore.drop offset.toNat).take limit.toNat).map
    (fun e => { name := e.1, path := e.2 })

/-- One entry's hydration in DatasetRequests.List: a failed load is
retried exactly once (two physical attempts, indexed 0 and 1) before
giving up with the second attempt's error. -/
def twoAttempt (load : Key → Nat → Except String Dataset) (k : Key) :
    Except String Dataset :=
  match load k 0 with
  | .ok ds => .ok ds
  | .error _ => load k 1

/-- The hydration loop of DatasetRequests.List: entries at positions
below the limit get their dataset bodies loaded (with the single
retry); a final failure aborts the whole call; entries at or past the
limit are passed through untouched. -/
def hydrateFrom (load : Key → Nat → Except String Dataset) (limit : Int) :
    Nat → List DatasetRef → Except String (List DatasetRef)
  | _, [] => .ok []
  | i, ref :: rest =>
    if limit ≤ (i : Int) then .ok (ref :: rest)
    else
      match twoAttempt load ref.path with
      | .error e =>
        .error ("error loading path: " ++ keyStr ref.path ++ ", err: " ++ e)
      | .ok ds =>
        match hydrateFrom load limit (i + 1) rest with
        | .error e => .error e
        | .ok tl => .ok ({ ref with dataset := some ds } :: tl)

/-- DatasetRequests.List (local branch): coerce the limit to 25 when at
most zero and the offset to zero when negative, load the namespace
page, and hydrate it. -/
def datasetsList (s : RepoState) (load : Key → Nat → Except String Dataset)
    (p : ListParams) : Except String (List DatasetRef) :=
  let limit := if p.Limit ≤ 0 then 25 else p.Limit
  let offset := if p.Offset < 0 then 0 else p.Offset
  hydrateFrom load limit 0 (namespacePage s limit offset)

/-- The walk of HistoryRequests.Log, with an explicit fuel bound so the
loop is a total function: load the record at the current path, append
it, decrement the limit, and stop on limit exhaustion or an empty
Previous; a load error aborts the whole call, discarding the walked
prefix. `none` means the fuel ran out before the loop broke. -/
def logLoop (load : Key → Except String Dataset) :
    Nat → Int → Key → List DatasetRef → Option (Except String (List DatasetRef))
  | 0, _, _, _ => none
  | fuel + 1, limit, path, acc =>
    match load path with
    | .error e => some (.error e)
    | .ok ds =>
      let acc1 := acc ++ [{ name := "", path := path, dataset := some ds }]
      let limit1 := limit - 1
      if limit1 = 0 ∨ ds.previous = [] then some (.ok acc1)
      else logLoop load fuel limit1 (refType ds.previous).2 acc1

/-- HistoryRequests.Log (local branch): require a non-empty starting
path, then run the backward walk. -/
def histLog (load : Key → Except String Dataset) (fuel : Nat) (limit : Int)
    (path : Key) : Option (Except String (List DatasetRef)) :=
  if path = [] then some (.error "path is required")
  else logLoop load fuel limit path []

/-- An opaque remote-procedure client handle. -/
structure RPCClient where
  id : Nat := 0
  deriving Repr, DecidableEq

/-- The method name DatasetRequests.List dials when a client is
configured. -/
def datasetsListRemoteMethod : String := "DatasetRequests.List"

/-- The method name DatasetRequests.Get dials. -/
def datasetsGetRemoteMethod : String := "DatasetRequests.Get"

/-- The method name DatasetRequests.InitDataset dials. -/
def datasetsInitRemoteMethod : String := "DatasetRequests.InitDataset"

/-- The method name DatasetRequests.Update dials. -/
def datasetsUpdateRemoteMethod : String := "DatasetRequests.Update"

/-- The method name DatasetRequests.Rename dials. -/
def datasetsRenameRemoteMethod : String := "DatasetRequests.Rename"

/-- The method name DatasetRequests.Delete dials when a client is
configured: the source forwards Delete to "DatasetRequests.List". -/
def datasetsDeleteRemoteMethod : String := "DatasetRequests.List"

/-- The method name HistoryRequests.Log dials when its client is set. -/
def historyLogRemoteMethod : String := "HistoryRequests.Log"

/-- HistoryRequests as constructed: which of its two fields hold a
value. `repo` is the local repository handle, `cli` the rpc client. -/
structure HistoryRequestsH where
  repo : Option Unit := none
  cli : Option RPCClient := none
  deriving Repr, DecidableEq

/-- NewHistoryRequests: panics (modelled as `none`) when both a repo
and a client are supplied; otherwise builds the handler with a struct
literal that sets only the repo field, leaving `cli` nil. -/
def newHistoryRequests (r : Option Unit) (cli : Option RPCClient) :
    Option HistoryRequestsH :=
  if r.isSome ∧ cli.isSome then none
  else some { repo := r, cli := none }

/-- Whether a Log call on this handler takes the remote-forwarding
branch (it does exactly when the handler's `cli` field is set). -/
def HistoryRequestsH.logForwards (h : HistoryRequestsH) : Bool := h.cli.isSome

/-- DatasetRequests as constructed (field presence only). -/
structure DatasetRequestsH where
  repo : Option Unit := none
  cli : Option RPCClient := none
  deriving Repr, DecidableEq

/-- NewDatasetRequests: panics (modelled as `none`) when both a repo and
a client are supplied; otherwise stores both arguments as given. -/
def newDatasetRequests (r : Option Unit) (cli : Option RPCClient) :
    Option DatasetRequestsH :=
  if r.isSome ∧ cli.isSome then none
  else some { repo := r, cli := cli }

/-- Whether a Delete call on this handler takes the remote-forwarding
branch, and if so which method name it dials. -/
def DatasetRequestsH.deleteDispatch (h : DatasetRequestsH) : Option String :=
  if h.cli.isSome then some datasetsDeleteRemoteMethod else none

/-- Claim C1: the remote-dispatch mode is supposed to forward every
handler operation to the remote method of the same name, in particular
DatasetRequests.Delete to the remote Delete, and a HistoryRequests
built with a client is supposed to forward Log. The code violates both:
the Delete forwarding branch dials "DatasetRequests.List", and
NewHistoryRequests discards the client it is given, so Log on a
client-built handler does not take the forwarding branch. -/
theorem C1_remote_dispatch_code_bug :
    newHistoryRequests none (some {}) = some { repo := none, cli := none }
    ∧ HistoryRequestsH.logForwards { repo := none, cli := none } = false
    ∧ (newDatasetRequests none (some {})).map DatasetRequestsH.deleteDispatch
        = some (some "DatasetRequests.List")
    ∧ datasetsDeleteRemoteMethod ≠ "DatasetRequests.Delete" := by
  refine ⟨rfl, rfl, rfl, ?_⟩
  decide

/-- Claim C9: the pagination conversion is exact — for page ≥ 1 and
pageSize ≥ 1, NewListParams yields Limit = pageSize and
Offset = (page-1)*pageSize, and Page() recovers exactly that page
number and size; a Limit at most 0 coerces to the default page size in
Page(), and a page that would produce a negative offset coerces it to
zero in NewListParams. -/
theorem C9_pagination_exact :
    (∀ (ob : String) (page pageSize : Int), 1 ≤ page → 1 ≤ pageSize →
      (newListParams ob page pageSize).Limit = pageSize
      ∧ (newListParams ob page pageSize).Offset = (page - 1) * pageSize
      ∧ (newListParams ob page pageSize).page.number = page
      ∧ (newListParams ob page pageSize).page.size = pageSize)
    ∧ (∀ lp : ListParams, lp.Limit ≤ 0 → lp.page.size = defaultPageSize)
    ∧ (∀ (ob : String) (page pageSize : Int), page < 1 →
      (newListParams ob page pageSize).Offset = 0) := by
  refine ⟨?_, ?_, ?_⟩
  · intro ob page pageSize hp hps
    have h1 : ¬ page < 1 := by omega
    have h2 : ¬ pageSize ≤ 0 := by omega
    simp only [newListParams, ListParams.page, h1, h2, if_false]
    refine ⟨trivial, trivial, ?_, trivial⟩
    rw [Int.mul_tdiv_cancel _ (by omega : pageSize ≠ 0)]
    omega
  · intro lp h
    simp [ListParams.page, h]
  · intro ob page pageSize h
    simp [newListParams, h]

/-- Witness for C9 at page 3, pageSize 10 (plus the two coercions). -/
theorem C9_pagination_exact_witness :
    ((newListParams "" 3 10).Limit = 10
      ∧ (newListParams "" 3 10).Offset = 20
      ∧ (newListParams "" 3 10).page.number = 3
      ∧ (newListParams "" 3 10).page.size = 10)
    ∧ ({ Limit := -5, Offset := 7 : ListParams }).page.size = defaultPageSize
    ∧ (newListParams "" 0 10).Offset = 0 := by
  refine ⟨?_, ?_, ?_⟩
  · have h := C9_pagination_exact.1 "" 3 10 (by decide) (by decide)
    exact ⟨h.1, by rw [h.2.1]; decide, h.2.2.1, h.2.2.2⟩
  · exact C9_pagination_exact.2.1 { Limit := -5, Offset := 7 } (by decide)
  · exact C9_pagination_exact.2.2 "" 0 10 (by decide)

/-- Claim C3: History Log returns a single-record chain from a root
record (empty Previous) for any limit; from a record three revisions
deep it returns all 4 records newest-first with no limit (limit 0) and
exactly the 2 most recent with limit 2; and a load error during the
walk aborts the whole call with that error, discarding the walked
prefix. -/
theorem C3_log_chain_shapes :
    (∀ (load : Key → Except String Dataset) (q : Key) (dq : Dataset) (lim : Int),
      q ≠ [] → load q = .ok dq → dq.previous = [] →
      histLog load 1 lim q = some (.ok [{ name := "", path := q, dataset := some dq }]))
    ∧ (∀ (load : Key → Except String Dataset) (p0 p1 p2 p3 : Key) (d0 d1 d2 d3 : Dataset),
      p0 ≠ [] →
      load p0 = .ok d0 → d0.previous ≠ [] → (refType d0.previous).2 = p1 →
      load p1 = .ok d1 → d1.previous ≠ [] → (refType d1.previous).2 = p2 →
      load p2 = .ok d2 → d2.previous ≠ [] → (refType d2.previous).2 = p3 →
      load p3 = .ok d3 → d3.previous = [] →
      histLog load 4 0 p0 = some (.ok
        [{ name := "", path := p0, dataset := some d0 },
         { name := "", path := p1, dataset := some d1 },
         { name := "", path := p2, dataset := some d2 },
         { name := "", path := p3, dataset := some d3 }])
      ∧ histLog load 4 2 p0 = some (.ok
        [{ name := "", path := p0, dataset := some d0 },
         { name := "", path := p1, dataset := some d1 }]))
    ∧ (∀ (load : Key → Except String Dataset) (q r : Key) (dq : Dataset) (e : String),
      q ≠ [] → load q = .ok dq → dq.previous ≠ [] → (refType dq.previous).2 = r →
      load r = .error e →
      histLog load 3 0 q = some (.error e)) := by
  refine ⟨?_, ?_, ?_⟩
  · intro load q dq lim hq hl hp
    rw [histLog, if_neg hq]
    simp [logLoop, hl, hp]
  · intro load p0 p1 p2 p3 d0 d1 d2 d3 h0 hl0 hp0 hc0 hl1 hp1 hc1 hl2 hp2 hc2 hl3 hp3
    constructor
    · rw [histLog, if_neg h0]
      simp only [logLoop, hl0, hc0, hl1, hc1, hl2, hc2, hl3, hp3]
      norm_num [hp0, hp1, hp2]
    · rw [histLog, if_neg h0]
      simp only [logLoop, hl0, hc0, hl1, hc1, hl2, hc2, hl3, hp3]
      norm_num [hp0, hp1, hp2]
  · intro load q r dq e hq hl hp hc hr
    rw [histLog, if_neg hq]
    simp only [logLoop, hl, hc, hr]
    norm_num [hp]

/-- A concrete four-revision history used to witness the Log claims. -/
def loadFour : Key → Except String Dataset := fun k =>
  if k = ["a"] then .ok { title := "A", previous := ["b"] }
  else if k = ["b"] then .ok { title := "B", previous := ["c"] }
  else if k = ["c"] then .ok { title := "C", previous := ["d"] }
  else if k = ["d"] then .ok { title := "D", previous := [] }
  else .error "gone"

/-- A concrete history whose second record fails to load. -/
def loadBroken : Key → Except String Dataset := fun k =>
  if k = ["a"] then .ok { title := "A", previous := ["b"] }
  else .error "gone"

/-- Witness for C3 on the concrete four-revision history. -/
theorem C3_log_chain_shapes_witness :
    histLog loadFour 1 7 ["d"]
      = some (.ok [{ name := "", path := ["d"],
                     dataset := some { title := "D", previous := [] } }])
    ∧ histLog loadFour 4 0 ["a"] = some (.ok
        [{ name := "", path := ["a"], dataset := some { title := "A", previous := ["b"] } },
         { name := "", path := ["b"], dataset := some { title := "B", previous := ["c"] } },
         { name := "", path := ["c"], dataset := some { title := "C", previous := ["d"] } },
         { name := "", path := ["d"], dataset := some { title := "D", previous := [] } }])
    ∧ histLog loadFour 4 2 ["a"] = some (.ok
        [{ name := "", path := ["a"], dataset := some { title := "A", previous := ["b"] } },
         { name := "", path := ["b"], dataset := some { title := "B", previous := ["c"] } }])
    ∧ histLog loadBroken 3 0 ["a"] = some (.error "gone") := by
  have h2 := C3_log_chain_shapes.2.1 loadFour ["a"] ["b"] ["c"] ["d"]
    { title := "A", previous := ["b"] } { title := "B", previous := ["c"] }
    { title := "C", previous := ["d"] } { title := "D", previous := [] }
    (by decide) rfl (by decide) (by decide) rfl (by decide) (by decide)
    rfl (by decide) (by decide) rfl rfl
  refine ⟨?_, h2.1, h2.2, ?_⟩
  · exact C3_log_chain_shapes.1 loadFour ["d"]
      { title := "D", previous := [] } 7 (by decide) rfl rfl
  · exact C3_log_chain_shapes.2.2 loadBroken ["a"] ["b"]
      { title := "A", previous := ["b"] } "gone" (by decide) rfl (by decide)
      (by decide) rfl

/-- A finite, acyclic, fully-loadable history chain: the walk relation
that HistoryRequests.Log follows, measured by its depth. `LogChain load
p n` says the record at `p` loads, and following (cleaned) Previous
pointers reaches a root record after exactly `n` steps. -/
inductive LogChain (load : Key → Except String Dataset) : Key → Nat → Prop where
  | root {p : Key} {ds : Dataset} :
      load p = .ok ds → ds.previous = [] → LogChain load p 0
  | step {p : Key} {ds : Dataset} {n : Nat} :
      load p = .ok ds → ds.previous ≠ [] →
      LogChain load (refType ds.previous).2 n → LogChain load p (n + 1)

/-- Claim C8: when the records reachable from the starting path form a
finite acyclic chain whose loads all succeed, the Log walk completes
within chain-depth-plus-one iterations for every limit value, including
zero and negative limits (fuel n+1 always yields a settled result,
never fuel exhaustion). -/
theorem C8_log_terminates (load : Key → Except String Dataset) (p : Key) (n : Nat)
    (h : LogChain load p n) (lim : Int) :
    (histLog load (n + 1) lim p).isSome = true := by
  have aux : ∀ (m : Nat) (q : Key), LogChain load q m →
      ∀ (l : Int) (acc : List DatasetRef), (logLoop load (m + 1) l q acc).isSome = true := by
    intro m q hq
    induction hq with
    | root hl hprev =>
      intro l acc
      simp [logLoop, hl, hprev]
    | step hl hprev _ ih =>
      intro l acc
      simp only [logLoop, hl]
      by_cases hb : l - 1 = 0
      · simp [hb]
      · simp only [hb, false_or]
        rw [if_neg hprev]
        exact ih (l - 1) _
  by_cases hp : p = []
  · simp [histLog, hp]
  · rw [histLog, if_neg hp]
    exact aux n p h lim []

/-- Witness for C8: a two-revision chain walked with a negative limit. -/
theorem C8_log_terminates_witness :
    (histLog loadFour 2 (-3) ["c"]).isSome = true := by
  have hch : LogChain loadFour ["c"] 1 := by
    exact @LogChain.step loadFour ["c"] { title := "C", previous := ["d"] } 0 rfl
      (by decide)
      (@LogChain.root loadFour ["d"] { title := "D", previous := [] } rfl rfl)
  exact C8_log_terminates loadFour ["c"] 1 hch (-3)

/-- Claim C7: DatasetRequests.List coerces a non-positive Limit to 25
and a negative Offset to 0 instead of failing; it hydrates every entry
of the namespace page below the limit, where one failed load is retried
exactly once (a second attempt that succeeds hydrates the entry), and
an entry whose two attempts both fail aborts the whole call with the
wrapped second error. -/
theorem C7_list_normalizes_and_hydrates :
    (∀ (s : RepoState) (load : Key → Nat → Except String Dataset) (p : ListParams),
      p.Limit ≤ 0 → datasetsList s load p = datasetsList s load { p with Limit := 25 })
    ∧ (∀ (s : RepoState) (load : Key → Nat → Except String Dataset) (p : ListParams),
      p.Offset < 0 → datasetsList s load p = datasetsList s load { p with Offset := 0 })
    ∧ (∀ (load : Key → Nat → Except String Dataset) (k : Key) (e : String) (ds : Dataset),
      load k 0 = .error e → load k 1 = .ok ds → twoAttempt load k = .ok ds)
    ∧ (∀ (load : Key → Nat → Except String Dataset) (limit : Int) (i : Nat)
        (page : List DatasetRef) (hyd : Key → Dataset),
      (i : Int) + page.length ≤ limit →
      (∀ r ∈ page, twoAttempt load r.path = .ok (hyd r.path)) →
      hydrateFrom load limit i page
        = .ok (page.map (fun r => { r with dataset := some (hyd r.path) })))
    ∧ (∀ (load : Key → Nat → Except String Dataset) (limit : Int) (i : Nat)
        (nm : String) (k : Key) (rest : List DatasetRef) (e0 e1 : String),
      (i : Int) < limit → load k 0 = .error e0 → load k 1 = .error e1 →
      hydrateFrom load limit i ({ name := nm, path := k, dataset := none } :: rest)
        = .error ("error loading path: " ++ keyStr k ++ ", err: " ++ e1)) := by
  refine ⟨?_, ?_, ?_, ?_, ?_⟩
  · intro s load p h
    have h25 : ¬ (25 : Int) ≤ 0 := by decide
    simp [datasetsList, h, h25]
  · intro s load p h
    have h0 : ¬ (0 : Int) < 0 := by decide
    simp [datasetsList, h, h0]
  · intro load k e ds h0 h1
    rw [twoAttempt, h0, h1]
  · intro load limit i page hyd
    induction page generalizing i with
    | nil => intro _ _; rfl
    | cons r rest ih =>
      intro hlen hmem
      rw [hydrateFrom, if_neg ?_]
      · rw [hmem r (List.mem_cons_self r rest)]
        rw [ih (i + 1) ?_ ?_]
        · simp
        · simp only [List.length_cons] at hlen
          push_cast
          push_cast at hlen
          omega
        · intro q hq
          exact hmem q (List.mem_cons_of_mem r hq)
      · simp only [List.length_cons] at hlen
        push_cast at hlen ⊢
        omega
  · intro load limit i nm k rest e0 e1 hi h0 h1
    rw [hydrateFrom, if_neg (by omega)]
    have ht : twoAttempt load k = .error e1 := by rw [twoAttempt, h0, h1]
    rw [ht]

/-- Concrete flaky store for the C7 witness: the first load of the
first path fails, its retry succeeds. -/
def loadFlaky : Key → Nat → Except String Dataset := fun k i =>
  if k = ["map", "p"] ∧ i = 0 then .error "flake"
  else if k = ["map", "p"] then .ok { title := "P" }
  else if k = ["map", "q"] then .ok { title := "Q" }
  else .error "gone"

/-- Concrete store whose two attempts both fail, for the C7 witness. -/
def loadDead : Key → Nat → Except String Dataset := fun _ _ => .error "dead"

/-- Witness for C7 on concrete pages and loaders. -/
theorem C7_list_normalizes_and_hydrates_witness :
    datasetsList { namestore := [("movies", ["map", "p"])] } loadFlaky
        { Limit := -3, Offset := 0 }
      = datasetsList { namestore := [("movies", ["map", "p"])] } loadFlaky
        { Limit := 25, Offset := 0 }
    ∧ datasetsList { namestore := [("movies", ["map", "p"])] } loadFlaky
        { Limit := 2, Offset := -7 }
      = datasetsList { namestore := [("movies", ["map", "p"])] } loadFlaky
        { Limit := 2, Offset := 0 }
    ∧ twoAttempt loadFlaky ["map", "p"] = .ok { title := "P" }
    ∧ hydrateFrom loadFlaky 25 0
        [{ name := "movies", path := ["map", "p"] }, { name := "cities", path := ["map", "q"] }]
      = .ok [{ name := "movies", path := ["map", "p"], dataset := some { title := "P" } },
             { name := "cities", path := ["map", "q"], dataset := some { title := "Q" } }]
    ∧ hydrateFrom loadDead 25 0 [{ name := "movies", path := ["map", "p"] }]
      = .error ("error loading path: " ++ keyStr ["map", "p"] ++ ", err: " ++ "dead") := by
  refine ⟨?_, ?_, ?_, ?_, ?_⟩
  · exact C7_list_normalizes_and_hydrates.1 _ loadFlaky _ (by decide)
  · exact C7_list_normalizes_and_hydrates.2.1 _ loadFlaky _ (by decide)
  · exact C7_list_normalizes_and_hydrates.2.2.1 loadFlaky ["map", "p"] "flake"
      { title := "P" } rfl rfl
  · have h := C7_list_normalizes_and_hydrates.2.2.2.1 loadFlaky 25 0
      [{ name := "movies", path := ["map", "p"] }, { name := "cities", path := ["map", "q"] }]
      (fun k => if k = ["map", "p"] then { title := "P" } else { title := "Q" })
      (by decide) ?_
    · rw [h]
      rfl
    · intro r hr
      rcases List.mem_cons.mp hr with hr | hr
      · subst hr; rfl
      · rcases List.mem_cons.mp hr with hr | hr
        · subst hr; rfl
        · exact absurd hr (List.not_mem_nil r)
  · exact C7_list_normalizes_and_hydrates.2.2.2.2 loadDead 25 0 "movies" ["map", "p"]
      [] "dead" "dead" (by decide) rfl rfl

/-- Looking a name up past a prefix that does not bind it. -/
theorem lookupName_append (l1 l2 : List (String × Key)) (n : String)
    (h : lookupName l1 n = none) : lookupName (l1 ++ l2) n = lookupName l2 n := by
  induction l1 with
  | nil => rfl
  | cons e rest ih =>
    rw [List.cons_append, lookupName]
    rw [lookupName] at h
    by_cases he : e.1 = n
    · rw [if_pos he] at h
      cases h
    · rw [if_neg he] at h ⊢
      exact ih h

/-- Deleting a name removes every binding of it. -/
theorem lookupName_filter_self (l : List (String × Key)) (n : String) :
    lookupName (l.filter (fun e => e.1 ≠ n)) n = none := by
  induction l with
  | nil => rfl
  | cons e rest ih =>
    by_cases he : e.1 = n
    · rw [List.filter_cons_of_neg (by simp [he])]
      exact ih
    · rw [List.filter_cons_of_pos (by simp [he]), lookupName, if_neg he]
      exact ih

/-- Deleting one name leaves every other name's binding unchanged. -/
theorem lookupName_filter_other (l : List (String × Key)) (n m : String)
    (h : n ≠ m) : lookupName (l.filter (fun e => e.1 ≠ m)) n = lookupName l n := by
  induction l with
  | nil => rfl
  | cons e rest ih =>
    by_cases he : e.1 = m
    · rw [List.filter_cons_of_neg (by simp [he]), lookupName, if_neg ?_]
      · exact ih
      · rw [he]
        exact fun hc => h hc.symm
    · rw [List.filter_cons_of_pos (by simp [he]), lookupName, lookupName]
      by_cases hen : e.1 = n
      · rw [if_pos hen, if_pos hen]
      · rw [if_neg hen, if_neg hen]
        exact ih

/-- Claim C6: Rename fails on an empty current name, an invalid new
name, an already-bound destination, or an unresolvable current name —
leaving the whole state (hence the source binding) untouched in each
case — and on success it deletes the old binding, binds the new name to
the same path, and returns the dataset at that path under the new
name. -/
theorem C6_rename_contract :
    (∀ (s : RepoState) (p : RenameParams), p.current = "" →
      rename s p = (.error "current name is required to rename a dataset", s))
    ∧ (∀ (s : RepoState) (p : RenameParams), p.current ≠ "" →
      validName p.new = false →
      rename s p = (.error "error: illegal name", s))
    ∧ (∀ (s : RepoState) (p : RenameParams) (q : Key), p.current ≠ "" →
      validName p.new = true → lookupName s.namestore p.new = some q →
      rename s p = (.error ("name " ++ p.new ++ " already exists"), s))
    ∧ (∀ (s : RepoState) (p : RenameParams), p.current ≠ "" →
      validName p.new = true → lookupName s.namestore p.new = none →
      lookupName s.namestore p.current = none →
      rename s p = (.error ("error getting dataset: " ++ errNotFound), s))
    ∧ (∀ (s : RepoState) (p : RenameParams) (path : Key) (ds : Dataset),
      p.current ≠ "" → validName p.new = true →
      lookupName s.namestore p.new = none →
      lookupName s.namestore p.current = some path →
      lookupDs s.saved path = some ds →
      (rename s p).1 = .ok { name := p.new, path := path, dataset := some ds }
      ∧ lookupName (rename s p).2.namestore p.new = some path
      ∧ lookupName (rename s p).2.namestore p.current = none) := by
  refine ⟨?_, ?_, ?_, ?_, ?_⟩
  · intro s p h
    rw [rename, if_pos h]
  · intro s p hc hn
    rw [rename, if_neg hc, if_pos hn]
  · intro s p q hc hn hq
    rw [rename, if_neg hc, if_neg (by rw [hn]; decide)]
    rw [getPath, hq]
  · intro s p hc hn hnew hcur
    rw [rename, if_neg hc, if_neg (by rw [hn]; decide)]
    rw [getPath, hnew]
    dsimp only
    rw [if_neg (by decide), getPath, hcur]
  · intro s p path ds hc hn hnew hcur hl
    have hne : p.new ≠ p.current := by
      intro he
      rw [he, hcur] at hnew
      cases hnew
    have hput : putName (deleteName s p.current) p.new path
        = .ok { deleteName s p.current with
                namestore := (deleteName s p.current).namestore ++ [(p.new, path)] } := by
      rw [putName, if_neg (by rw [hn]; decide)]
      rw [show (deleteName s p.current).namestore
            = s.namestore.filter (fun e => e.1 ≠ p.current) from rfl]
      rw [lookupName_filter_other _ _ _ hne, hnew]
    have hr : rename s p
        = (.ok { name := p.new, path := path, dataset := some ds },
           { deleteName s p.current with
             namestore := (deleteName s p.current).namestore ++ [(p.new, path)] }) := by
      rw [rename, if_neg hc, if_neg (by rw [hn]; decide)]
      rw [getPath, hnew]
      dsimp only
      rw [if_neg (by decide), getPath, hcur]
      dsimp only
      rw [hput]
      dsimp only [loadDataset, deleteName]
      rw [hl]
    rw [hr]
    refine ⟨rfl, ?_, ?_⟩
    · rw [show ({ deleteName s p.current with
            namestore := (deleteName s p.current).namestore ++ [(p.new, path)] }
              : RepoState).namestore
          = s.namestore.filter (fun e => e.1 ≠ p.current) ++ [(p.new, path)] from rfl]
      rw [lookupName_append _ _ _ (by
        rw [lookupName_filter_other _ _ _ hne]
        exact hnew)]
      rw [lookupName, if_pos rfl]
    · rw [show ({ deleteName s p.current with
            namestore := (deleteName s p.current).namestore ++ [(p.new, path)] }
              : RepoState).namestore
          = s.namestore.filter (fun e => e.1 ≠ p.current) ++ [(p.new, path)] from rfl]
      rw [lookupName_append _ _ _ (lookupName_filter_self _ _)]
      rw [lookupName, if_neg hne]
      rfl

/-- Concrete repository used by the Rename witness. -/
def renameRepo : RepoState :=
  { namestore := [("movies", ["map", "p"]), ("cities", ["map", "q"])],
    saved := [(["map", "p"], { title := "movies" })] }

/-- Witness for C6 on the concrete repository. -/
theorem C6_rename_contract_witness :
    rename renameRepo { current := "", new := "films" }
      = (.error "current name is required to rename a dataset", renameRepo)
    ∧ rename renameRepo { current := "movies", new := "0bad" }
      = (.error "error: illegal name", renameRepo)
    ∧ rename renameRepo { current := "movies", new := "cities" }
      = (.error ("name " ++ "cities" ++ " already exists"), renameRepo)
    ∧ rename renameRepo { current := "zz", new := "films" }
      = (.error ("error getting dataset: " ++ errNotFound), renameRepo)
    ∧ ((rename renameRepo { current := "movies", new := "films" }).1
        = .ok { name := "films", path := ["map", "p"], dataset := some { title := "movies" } }
      ∧ lookupName (rename renameRepo { current := "movies", new := "films" }).2.namestore
          "films" = some ["map", "p"]
      ∧ lookupName (rename renameRepo { current := "movies", new := "films" }).2.namestore
          "movies" = none) := by
  refine ⟨?_, ?_, ?_, ?_, ?_⟩
  · exact C6_rename_contract.1 renameRepo { current := "", new := "films" } rfl
  · exact C6_rename_contract.2.1 renameRepo { current := "movies", new := "0bad" }
      (by decide) (by decide)
  · exact C6_rename_contract.2.2.1 renameRepo { current := "movies", new := "cities" }
      ["map", "q"] (by decide) (by decide) rfl
  · exact C6_rename_contract.2.2.2.1 renameRepo { current := "zz", new := "films" }
      (by decide) (by decide) rfl rfl
  · exact C6_rename_contract.2.2.2.2 renameRepo { current := "movies", new := "films" }
      ["map", "p"] { title := "movies" } (by decide) (by decide) rfl rfl rfl

/-- A successful PutName only appends the new binding. -/
theorem putName_ok_namestore {s s' : RepoState} {n : String} {k : Key}
    (h : putName s n k = .ok s') :
    s'.namestore = s.namestore ++ [(n, k)] := by
  rw [putName] at h
  split at h
  · cases h
  · split at h
    · cases h
    · cases h
      rfl

/-- A successful PutName leaves the dataset store untouched. -/
theorem putName_ok_datasets {s s' : RepoState} {n : String} {k : Key}
    (h : putName s n k = .ok s') : s'.datasets = s.datasets := by
  rw [putName] at h
  split at h
  · cases h
  · split at h
    · cases h
    · cases h
      rfl

/-- A successful PutName binds a valid name. -/
theorem putName_ok_valid {s s' : RepoState} {n : String} {k : Key}
    (h : putName s n k = .ok s') : validName n = true := by
  rw [putName] at h
  split at h
  · cases h
  · rename_i hv
    cases hb : validName n
    · exact absurd hb hv
    · rfl

/-- A successful PutName binds a previously-unbound name. -/
theorem putName_ok_unbound {s s' : RepoState} {n : String} {k : Key}
    (h : putName s n k = .ok s') : lookupName s.namestore n = none := by
  rw [putName] at h
  split at h
  · cases h
  · split at h
    · cases h
    · rename_i hl
      exact hl

/-- Claim C4 for the post-resolution body: whenever InitDataset fails,
the Namestore is exactly as it was before the call — no partial name
binding is left behind (persisted blobs and records may remain). -/
theorem initDatasetBody_error_no_binding (s : RepoState) (now : Nat)
    (p : InitDatasetParams) (fn data : String) (e : String) (s' : RepoState)
    (hb : initDatasetBody s now p fn data = (.error e, s')) :
    s'.namestore = s.namestore := by
  rw [initDatasetBody] at hb
  simp only [putBlob, saveDataset, putDataset, getDataset] at hb
  repeat' split at hb
  all_goals injection hb with h1 h2
  all_goals try cases h1
  all_goals rw [← h2]
  rename_i x1 s4 hput x0 hnone
  rw [putName_ok_datasets hput] at hnone
  rw [lookupDs, if_pos rfl] at hnone
  cases hnone

/-- Claim C4: whenever InitDataset returns an error, no name-to-path
binding created by that call remains in the Namestore — the namespace
after the failed call is exactly the namespace before it (the persisted
blob may remain). -/
theorem C4_init_error_no_binding (s : RepoState) (now : Nat)
    (fetch : String → Except String String) (p : InitDatasetParams)
    (e : String) (s' : RepoState)
    (h : initDataset s now fetch p = (.error e, s')) :
    s'.namestore = s.namestore := by
  rw [initDataset] at h
  split at h
  · split at h
    · injection h with h1 h2
      rw [← h2]
    · exact initDatasetBody_error_no_binding _ _ _ _ _ _ _ h
  · split at h
    · exact initDatasetBody_error_no_binding _ _ _ _ _ _ _ h
    · injection h with h1 h2
      rw [← h2]

/-- Witness for C4: a duplicate-column CSV fails InitDataset and leaves
the Namestore empty. -/
theorem C4_init_error_no_binding_witness :
    ((initDataset {} 5 (fun _ => .error "offline")
        { dataFilename := "x.csv", data := some "a,a\n1,2" }).2).namestore
      = (({} : RepoState)).namestore := by
  exact C4_init_error_no_binding {} 5 (fun _ => .error "offline")
    { dataFilename := "x.csv", data := some "a,a\n1,2" }
    "invalid structure: duplicate column name" _ rfl

/-- The name InitDataset actually binds: the caller's name, or the
coerced filename when no name was supplied. -/
def initName (p : InitDatasetParams) (fn : String) : String :=
  if p.name = "" ∧ fn ≠ "" then camelize fn else p.name

/-- The record InitDataset assembles when no metadata stream is
supplied: title defaulted to the bound name, download-URL and weekly
accrual periodicity set for URL sources, fresh timestamp, the stored
payload's content key, and the inferred structure. -/
def initRecord (p : InitDatasetParams) (now : Nat) (nm : String)
    (dataPathStr : String) (fields : List String) : Dataset :=
  { title := nm,
    downloadURL := if p.url ≠ "" then p.url else "",
    accrualPeriodicity := if p.url ≠ "" then "R/P1W" else "",
    timestamp := now,
    dataKey := dataPathStr,
    length := 0,
    struct := fields,
    previous := [] }

/-- On the fresh (metadata-free) base record, the assembly tail
produces exactly the documented init record. -/
theorem assembleInitRecord_fresh (p : InitDatasetParams) (now : Nat) (nm dk : String)
    (fields : List String) :
    assembleInitRecord now nm dk fields
      (if p.url ≠ "" then { downloadURL := p.url, accrualPeriodicity := "R/P1W" } else {})
    = initRecord p now nm dk fields := by
  by_cases hu : p.url ≠ ""
  · simp [assembleInitRecord, initRecord, hu]
  · simp [assembleInitRecord, initRecord, hu]

/-- The success shape of the InitDataset body: with a valid-or-absent
caller name, a detected format, a well-formed payload, a
duplicate-free schema, fresh content, no metadata stream, and a
bindable derived name, the call persists the assembled record, binds
the derived name to its path, and returns the hydrated ref under the
caller-supplied name. -/
theorem initDatasetBody_ok_shape (s : RepoState) (now : Nat) (p : InitDatasetParams)
    (fn data : String) (fmt : DataFormat)
    (hmd : p.metadata = none)
    (hname : ¬(p.name ≠ "" ∧ validName p.name = false))
    (hfmt : extensionDataFormat fn = .ok fmt)
    (hok : dataFormatOk fmt data = true)
    (hdup : hasDupNames (detectSchema fmt data) = false)
    (hfresh : hasPathDs s ["map", "data:" ++ data] = false)
    (hvalid : validName (initName p fn) = true)
    (hunbound : lookupName s.namestore (initName p fn) = none) :
    initDatasetBody s now p fn data =
      (.ok { name := p.name,
             path := dsKeyOf (initRecord p now (initName p fn)
               (keyStr ["map", "data:" ++ data]) (detectSchema fmt data)),
             dataset := some (initRecord p now (initName p fn)
               (keyStr ["map", "data:" ++ data]) (detectSchema fmt data)) },
       { namestore := s.namestore ++ [(initName p fn,
           dsKeyOf (initRecord p now (initName p fn)
             (keyStr ["map", "data:" ++ data]) (detectSchema fmt data)))],
         datasets := (dsKeyOf (initRecord p now (initName p fn)
             (keyStr ["map", "data:" ++ data]) (detectSchema fmt data)),
           initRecord p now (initName p fn)
             (keyStr ["map", "data:" ++ data]) (detectSchema fmt data)) :: s.datasets,
         saved := (dsKeyOf (initRecord p now (initName p fn)
             (keyStr ["map", "data:" ++ data]) (detectSchema fmt data)),
           initRecord p now (initName p fn)
             (keyStr ["map", "data:" ++ data]) (detectSchema fmt data)) :: s.saved,
         blobs := (["map", "data:" ++ data], data) :: s.blobs }) := by
  rw [initDatasetBody]
  rw [if_neg hname, hfmt]
  dsimp only
  rw [hok]
  rw [if_neg (by decide)]
  rw [validStructure, if_neg (by rw [hdup]; decide)]
  dsimp only [putBlob]
  rw [if_neg (by decide)]
  rw [show hasPathDs { s with blobs := (["map", "data:" ++ data], data) :: s.blobs }
        ["map", "data:" ++ data] = hasPathDs s ["map", "data:" ++ data] from rfl]
  rw [hfresh, if_neg (by decide)]
  rw [hmd]
  dsimp only [saveDataset, putDataset, getDataset]
  rw [putName, if_neg (by rw [show (if p.name = "" ∧ fn ≠ "" then camelize fn else p.name)
        = initName p fn from rfl, hvalid]; decide)]
  rw [show (if p.name = "" ∧ fn ≠ "" then camelize fn else p.name) = initName p fn from rfl]
  rw [hunbound]
  dsimp only
  rw [lookupDs, if_pos rfl]
  rw [assembleInitRecord_fresh p now (initName p fn) (keyStr ["map", "data:" ++ data])
    (detectSchema fmt data)]

/-- Claim C10 at the body level: a successful InitDataset with no
caller-supplied name returns a ref whose Name is the empty string even
though the name actually bound to the new path is the (non-empty)
coerced filename. -/
theorem initDatasetBody_ok_empty_name (s : RepoState) (now : Nat)
    (p : InitDatasetParams) (fn data : String) (ref : DatasetRef) (s' : RepoState)
    (hp : p.name = "")
    (h : initDatasetBody s now p fn data = (.ok ref, s')) :
    ref.name = "" ∧ camelize fn ≠ ""
    ∧ lookupName s'.namestore (camelize fn) = some ref.path := by
  rw [initDatasetBody, hp] at h
  simp only [putBlob, saveDataset, putDataset, getDataset] at h
  repeat' split at h
  all_goals injection h with h1 h2
  all_goals cases h1
  all_goals rw [← h2]
  all_goals have hput := (by assumption : putName _ _ _ = Except.ok _)
  all_goals rename_i hcond
  all_goals first
  | (rw [if_neg hcond] at hput
     exact absurd (putName_ok_valid hput) (by decide))
  | (rw [if_pos hcond] at hput
     have hv := putName_ok_valid hput
     have hun := putName_ok_unbound hput
     have hns := putName_ok_namestore hput
     dsimp only at hv hun hns
     refine ⟨rfl, ?_, ?_⟩
     · intro hce
       rw [hce] at hv
       exact absurd hv (by decide)
     · rw [hns, lookupName_append _ _ _ hun, lookupName, if_pos rfl]
       try rfl)

/-- Claim C10: when InitDataset succeeds with no caller-supplied Name,
the returned DatasetRef carries the caller's empty Name, even though
the (non-empty) default name coerced from the filename is what actually
got bound to the new path in the Namestore. -/
theorem C10_empty_name_still_binds (s : RepoState) (now : Nat)
    (fetch : String → Except String String) (p : InitDatasetParams)
    (ref : DatasetRef) (s' : RepoState)
    (hp : p.name = "")
    (h : initDataset s now fetch p = (.ok ref, s')) :
    ref.name = "" ∧ camelize (initFilename p) ≠ ""
    ∧ lookupName s'.namestore (camelize (initFilename p)) = some ref.path := by
  rw [initDataset] at h
  split at h
  · rename_i hu
    split at h
    · injection h with h1 h2
      cases h1
    · simp only [initFilename, if_pos hu]
      exact initDatasetBody_ok_empty_name _ _ _ _ _ _ _ hp h
  · rename_i hu
    split at h
    · simp only [initFilename, if_neg hu]
      exact initDatasetBody_ok_empty_name _ _ _ _ _ _ _ hp h
    · injection h with h1 h2
      cases h1

/-- The record the C10 witness init computes. -/
def c10rec : Dataset :=
  { title := "my_file", timestamp := 5, dataKey := "/map/data:a,b\n1,2",
    struct := ["a", "b"] }

/-- The content path the C10 witness init computes. -/
def c10path : Key := dsKeyOf c10rec

/-- The parameters of the C10 witness init. -/
def c10params : InitDatasetParams :=
  { dataFilename := "My File.csv", data := some "a,b\n1,2" }

/-- Witness for C10: a nameless init of a small CSV returns a ref named
by the empty string while binding the coerced filename. -/
theorem C10_empty_name_still_binds_witness :
    (initDataset {} 5 (fun _ => .error "offline") c10params).1
      = .ok { name := "", path := c10path, dataset := some c10rec }
    ∧ camelize "My File.csv" ≠ ""
    ∧ lookupName (initDataset {} 5 (fun _ => .error "offline") c10params).2.namestore
        (camelize "My File.csv")
      = some c10path := by
  have h : initDataset {} 5 (fun _ => .error "offline") c10params
      = (.ok { name := "", path := c10path, dataset := some c10rec },
         (initDataset {} 5 (fun _ => .error "offline") c10params).2) := rfl
  have c := C10_empty_name_still_binds {} 5 (fun _ => .error "offline")
    c10params _ _ rfl h
  exact ⟨congrArg Prod.fst h, c.2.1, c.2.2⟩

/-- Counterexample to claim C5 as stated: the empty InitDataset input
has a filename with no extension, yet the call fails with the
missing-source error, not a format-detection error — the source checks
for a data source before it ever detects a format. -/
theorem C5_counterexample_no_source :
    (initDataset {} 0 (fun _ => .error "offline") {}).1
      = .error "either a file or a url is required to create a dataset"
    ∧ extensionDataFormat "" = .error "no file extension provided"
    ∧ "either a file or a url is required to create a dataset"
      ≠ "error detecting format extension: " ++ "no file extension provided" := by
  refine ⟨rfl, rfl, ?_⟩
  decide

/-- Claim C5 as amended: for calls that do supply a data source and a
valid-or-absent name, InitDataset fails with the wrapped
format-detection error when detection rejects the filename, with a
data-format error when the payload is malformed for the detected
format, with a structure error when the inferred schema repeats a
column name, and for well-formed fresh input (no metadata stream, a
bindable derived name) it succeeds with a hydrated DatasetRef. -/
theorem C5_init_error_stages :
    (∀ (s : RepoState) (now : Nat) (fetch : String → Except String String)
        (p : InitDatasetParams) (d e : String),
      p.url = "" → p.data = some d → ¬(p.name ≠ "" ∧ validName p.name = false) →
      extensionDataFormat p.dataFilename = .error e →
      initDataset s now fetch p = (.error ("error detecting format extension: " ++ e), s))
    ∧ (∀ (s : RepoState) (now : Nat) (fetch : String → Except String String)
        (p : InitDatasetParams) (d : String) (fmt : DataFormat),
      p.url = "" → p.data = some d → ¬(p.name ≠ "" ∧ validName p.name = false) →
      extensionDataFormat p.dataFilename = .ok fmt → dataFormatOk fmt d = false →
      initDataset s now fetch p = (.error "invalid data format: malformed payload", s))
    ∧ (∀ (s : RepoState) (now : Nat) (fetch : String → Except String String)
        (p : InitDatasetParams) (d : String) (fmt : DataFormat),
      p.url = "" → p.data = some d → ¬(p.name ≠ "" ∧ validName p.name = false) →
      extensionDataFormat p.dataFilename = .ok fmt → dataFormatOk fmt d = true →
      hasDupNames (detectSchema fmt d) = true →
      initDataset s now fetch p = (.error ("invalid structure: " ++ "duplicate column name"), s))
    ∧ (∀ (s : RepoState) (now : Nat) (fetch : String → Except String String)
        (p : InitDatasetParams) (d : String) (fmt : DataFormat),
      p.url = "" → p.data = some d → p.metadata = none →
      ¬(p.name ≠ "" ∧ validName p.name = false) →
      extensionDataFormat p.dataFilename = .ok fmt → dataFormatOk fmt d = true →
      hasDupNames (detectSchema fmt d) = false →
      hasPathDs s ["map", "data:" ++ d] = false →
      validName (initName p p.dataFilename) = true →
      lookupName s.namestore (initName p p.dataFilename) = none →
      (initDataset s now fetch p).1
        = .ok { name := p.name,
                path := dsKeyOf (initRecord p now (initName p p.dataFilename)
                  (keyStr ["map", "data:" ++ d]) (detectSchema fmt d)),
                dataset := some (initRecord p now (initName p p.dataFilename)
                  (keyStr ["map", "data:" ++ d]) (detectSchema fmt d)) }) := by
  refine ⟨?_, ?_, ?_, ?_⟩
  · intro s now fetch p d e hu hd hname hfmt
    rw [initDataset, if_neg (fun hc => hc hu), hd]
    dsimp only
    rw [initDatasetBody, if_neg hname, hfmt]
  · intro s now fetch p d fmt hu hd hname hfmt hbad
    rw [initDataset, if_neg (fun hc => hc hu), hd]
    dsimp only
    rw [initDatasetBody, if_neg hname, hfmt]
    dsimp only
    rw [hbad, if_pos rfl]
  · intro s now fetch p d fmt hu hd hname hfmt hok hdup
    rw [initDataset, if_neg (fun hc => hc hu), hd]
    dsimp only
    rw [initDatasetBody, if_neg hname, hfmt]
    dsimp only
    rw [hok, if_neg (by decide)]
    rw [validStructure, if_pos (by rw [hdup])]
  · intro s now fetch p d fmt hu hd hmd hname hfmt hok hdup hfresh hvalid hunbound
    rw [initDataset, if_neg (fun hc => hc hu), hd]
    dsimp only
    rw [initDatasetBody_ok_shape s now p p.dataFilename d fmt hmd hname hfmt hok hdup
      hfresh hvalid hunbound]

/-- The parameters of the C5 success witness. -/
def c5params : InitDatasetParams :=
  { name := "jobs", dataFilename := "j.csv", data := some "a,b\n1,2" }

/-- Witness for the amended C5 on concrete inputs: extensionless
filename, ragged CSV, duplicate columns, and a clean init. -/
theorem C5_init_error_stages_witness :
    initDataset {} 0 (fun _ => .error "offline")
        { dataFilename := "noext", data := some "a,b\n1,2" }
      = (.error ("error detecting format extension: " ++ "no file extension provided"), {})
    ∧ initDataset {} 0 (fun _ => .error "offline")
        { dataFilename := "bad.csv", data := some "\na,b,c\n1,2" }
      = (.error "invalid data format: malformed payload", {})
    ∧ initDataset {} 0 (fun _ => .error "offline")
        { dataFilename := "dup.csv", data := some "colA, colB, colB, colC\n1,2,3,4" }
      = (.error ("invalid structure: " ++ "duplicate column name"), {})
    ∧ (initDataset {} 5 (fun _ => .error "offline") c5params).1
      = .ok { name := "jobs",
              path := dsKeyOf (initRecord c5params 5 (initName c5params "j.csv")
                (keyStr ["map", "data:" ++ "a,b\n1,2"]) (detectSchema .csv "a,b\n1,2")),
              dataset := some (initRecord c5params 5 (initName c5params "j.csv")
                (keyStr ["map", "data:" ++ "a,b\n1,2"]) (detectSchema .csv "a,b\n1,2")) } := by
  refine ⟨?_, ?_, ?_, ?_⟩
  · exact C5_init_error_stages.1 {} 0 (fun _ => .error "offline")
      { dataFilename := "noext", data := some "a,b\n1,2" } "a,b\n1,2"
      "no file extension provided" rfl rfl (by decide) rfl
  · exact C5_init_error_stages.2.1 {} 0 (fun _ => .error "offline")
      { dataFilename := "bad.csv", data := some "\na,b,c\n1,2" } "\na,b,c\n1,2"
      .csv rfl rfl (by decide) rfl rfl
  · exact C5_init_error_stages.2.2.1 {} 0 (fun _ => .error "offline")
      { dataFilename := "dup.csv", data := some "colA, colB, colB, colC\n1,2,3,4" }
      "colA, colB, colB, colC\n1,2,3,4" .csv rfl rfl (by decide) rfl rfl rfl
  · exact C5_init_error_stages.2.2.2 {} 5 (fun _ => .error "offline")
      c5params "a,b\n1,2" .csv rfl rfl rfl (by decide) rfl rfl rfl rfl rfl rfl

/-- The serialized record is strictly longer than the rendering of its
Previous key: the encoding embeds that rendering plus fixed framing. -/
theorem encodeDataset_length (ds : Dataset) :
    (encodeDataset ds).length ≥ (keyStr ds.previous).length + 9 := by
  have h1 : ("|" : String).length = 1 := rfl
  have h8 : ("|qridsv1" : String).length = 8 := rfl
  rw [encodeDataset]
  simp only [String.length_append, h1, h8]
  omega

/-- A freshly saved record's content address differs from the prior
path its Previous field was derived from: the address embeds the
(stripped) prior path, so equality would force the address to embed a
string longer than itself. -/
theorem dsKeyOf_ne_prevpath (ds : Dataset) (prevpath : Key)
    (h : ds.previous = stripPkg prevpath) : dsKeyOf ds ≠ prevpath := by
  intro he
  rw [dsKeyOf] at he
  subst he
  have henc := encodeDataset_length ds
  have h3 : ("ds:" ++ encodeDataset ds).length = 3 + (encodeDataset ds).length := by
    rw [String.length_append]
    rfl
  by_cases hp : ("ds:" ++ encodeDataset ds) = packageFileDataset
  · have hsp : stripPkg ["map", "ds:" ++ encodeDataset ds] = ["map"] := by
      simp [stripPkg, hasPkgTail, hp]
    rw [hsp] at h
    have hk : (keyStr ds.previous).length = 4 := by
      rw [h]
      rfl
    have hxlen : ("ds:" ++ encodeDataset ds).length = 12 := by
      rw [hp]
      rfl
    rw [hk] at henc
    omega
  · have hsp : stripPkg ["map", "ds:" ++ encodeDataset ds]
        = ["map", "ds:" ++ encodeDataset ds] := by
      simp [stripPkg, hasPkgTail, hp]
    rw [hsp] at h
    have hk : (keyStr ds.previous).length = ("ds:" ++ encodeDataset ds).length + 5 := by
      rw [h]
      show ("/" ++ "map" ++ ("/" ++ ("ds:" ++ encodeDataset ds) ++ "")).length
        = ("ds:" ++ encodeDataset ds).length + 5
      simp only [String.length_append]
      have ha : ("/" : String).length = 1 := rfl
      have hb : ("map" : String).length = 3 := rfl
      have hc : ("" : String).length = 0 := rfl
      omega
    rw [hk] at henc
    omega

/-- A name found by reverse lookup in a namespace of valid names is
itself valid (or empty when nothing was found). -/
theorem lookupPath_valid (l : List (String × Key)) (q : Key)
    (hall : ∀ e ∈ l, validName e.1 = true) (hne : lookupPath l q ≠ "") :
    validName (lookupPath l q) = true := by
  induction l with
  | nil => exact absurd rfl hne
  | cons e rest ih =>
    obtain ⟨m, kk⟩ := e
    rw [lookupPath] at hne ⊢
    by_cases hk : kk = q
    · rw [if_pos hk] at hne ⊢
      exact hall (m, kk) (List.mem_cons_self _ _)
    · rw [if_neg hk] at hne ⊢
      exact ih (fun x hx => hall x (List.mem_cons_of_mem _ hx)) hne

/-- Inversion of the reference classifier: a "name" classification
means the reference was a single valid name token, returned as-is. -/
theorem refType_name (k r' : Key) (h : refType k = ("name", r')) :
    ∃ n, r' = [n] ∧ validName n = true := by
  match k with
  | [] =>
    injection h with h1
    exact absurd h1 (by decide)
  | [a] =>
    rw [refType] at h
    by_cases hv : validName a
    · rw [if_pos hv] at h
      injection h with h1 h2
      exact ⟨a, h2.symm, hv⟩
    · rw [if_neg hv] at h
      injection h with h1 h2
      exact absurd h1 (by decide)
  | a :: b :: t =>
    injection h with h1
    exact absurd h1 (by decide)

/-- The name a successful Previous-resolution hands back is valid
whenever it is non-empty (given a namespace of valid names). -/
theorem resolvePrevious_ok_name_valid (s : RepoState) (k : Key) (name : String)
    (pp : Key) (h : resolvePrevious s k = .ok (name, pp))
    (hvalidns : ∀ e ∈ s.namestore, validName e.1 = true)
    (hne : name ≠ "") : validName name = true := by
  rw [resolvePrevious] at h
  split at h
  · rename_i r heq
    obtain ⟨n, hr, hv⟩ := refType_name k r heq
    subst hr
    split at h
    · cases h
    · injection h with h12
      injection h12 with h1 h2
      rw [← h1]
      have : String.join [n] = n := by simp [String.join]
      rw [this]
      exact hv
  · rename_i x r heq hne2
    injection h with h12
    injection h12 with h1 h2
    rw [← h1]
    rw [← h1] at hne
    exact lookupPath_valid s.namestore r hvalidns hne

/-- Claim C2 as amended: when the Previous reference resolves (through
the Namestore for a bare name token, directly — with the package-file
suffix normalized away — for a path) to a path holding an existing
record, Update succeeds and the new record's Previous equals that prior
path with any trailing package-file suffix trimmed (exactly the prior
path when it carries no such suffix), and if a name was carried it now
resolves to the new path, which differs from the prior path. -/
theorem C2_update_previous_amended (s : RepoState) (now : Nat) (p : UpdateParams)
    (name : String) (prevpath : Key) (prev : Dataset)
    (hvalidns : ∀ e ∈ s.namestore, validName e.1 = true)
    (hres : resolvePrevious s p.changes.previous = .ok (name, prevpath))
    (hprev : getDataset s prevpath = some prev) :
    ∃ (ds : Dataset) (s' : RepoState),
      update s now p = (.ok { name := name, path := dsKeyOf ds, dataset := some ds }, s')
      ∧ ds.previous = stripPkg prevpath
      ∧ (hasPkgTail prevpath = false → ds.previous = prevpath)
      ∧ (name ≠ "" →
          lookupName s'.namestore name = some (dsKeyOf ds) ∧ dsKeyOf ds ≠ prevpath) := by
  rw [update, hres]
  dsimp only
  rw [hprev]
  dsimp only [saveDataset, deleteName, putBlob]
  by_cases hn : name = ""
  · cases hdata : p.data with
    | none =>
      dsimp only
      rw [if_neg (fun hc => hc hn)]
      refine ⟨_, _, rfl, rfl, ?_, ?_⟩
      · intro hpt
        show stripPkg prevpath = prevpath
        rw [stripPkg, hpt]
        rfl
      · intro hne
        exact absurd hn hne
    | some bytes =>
      dsimp only
      rw [if_neg (fun hc => hc hn)]
      refine ⟨_, _, rfl, rfl, ?_, ?_⟩
      · intro hpt
        show stripPkg prevpath = prevpath
        rw [stripPkg, hpt]
        rfl
      · intro hne
        exact absurd hn hne
  · have hvn : validName name = true :=
      resolvePrevious_ok_name_valid s p.changes.previous name prevpath hres hvalidns hn
    cases hdata : p.data with
    | none =>
      dsimp only
      rw [if_pos hn]
      rw [putName, if_neg (by rw [hvn]; decide)]
      rw [lookupName_filter_self]
      dsimp only
      refine ⟨_, _, rfl, rfl, ?_, ?_⟩
      · intro hpt
        show stripPkg prevpath = prevpath
        rw [stripPkg, hpt]
        rfl
      · intro _
        constructor
        · rw [lookupName_append _ _ _ (lookupName_filter_self _ _), lookupName, if_pos rfl]
        · exact dsKeyOf_ne_prevpath _ _ rfl
    | some bytes =>
      dsimp only
      rw [if_pos hn]
      rw [putName, if_neg (by rw [hvn]; decide)]
      rw [lookupName_filter_self]
      dsimp only
      refine ⟨_, _, rfl, rfl, ?_, ?_⟩
      · intro hpt
        show stripPkg prevpath = prevpath
        rw [stripPkg, hpt]
        rfl
      · intro _
        constructor
        · rw [lookupName_append _ _ _ (lookupName_filter_self _ _), lookupName, if_pos rfl]
        · exact dsKeyOf_ne_prevpath _ _ rfl

/-- The prior record of the C2 scenario. -/
def updPrevRec : Dataset := { title := "movies", dataKey := "/map/data:m", struct := ["a"] }

/-- A repository whose name "movies" is bound to a package-file path
(the shape AddDataset creates and SaveDataset-returned keys carry). -/
def updRepo : RepoState :=
  { namestore := [("movies", ["map", "prev", "dataset.json"])],
    datasets := [(["map", "prev", "dataset.json"], updPrevRec)] }

/-- An Update whose Previous is the bare name token "movies". -/
def updParams : UpdateParams := { changes := { previous := ["movies"] } }

/-- The Previous field of the record a handler call returned, when it
returned one. -/
def resultPrevious (x : Except String DatasetRef × RepoState) : Option Key :=
  match x.1 with
  | .ok r =>
    match r.dataset with
    | some ds => some ds.previous
    | none => none
  | .error _ => none

/-- Counterexample to claim C2 as stated: the name "movies" resolves
through the Namestore to the existing record's path
/map/prev/dataset.json, the Update succeeds, yet the new record's
Previous is the trimmed /map/prev — not exactly the prior path. -/
theorem C2_counterexample_pkg_suffix :
    resolvePrevious updRepo updParams.changes.previous
      = .ok ("movies", ["map", "prev", "dataset.json"])
    ∧ getDataset updRepo ["map", "prev", "dataset.json"] = some updPrevRec
    ∧ (update updRepo 9 updParams).1.isOk = true
    ∧ resultPrevious (update updRepo 9 updParams) = some ["map", "prev"]
    ∧ (["map", "prev"] : Key) ≠ ["map", "prev", "dataset.json"] := by
  refine ⟨rfl, rfl, rfl, rfl, ?_⟩
  decide

/-- Witness for the amended C2 on the concrete repository. -/
theorem C2_update_previous_amended_witness :
    (update updRepo 9 updParams).1.isOk = true
    ∧ resultPrevious (update updRepo 9 updParams)
      = some (stripPkg ["map", "prev", "dataset.json"]) := by
  obtain ⟨ds, s', h1, h2, h3, h4⟩ :=
    C2_update_previous_amended updRepo 9 updParams "movies"
      ["map", "prev", "dataset.json"] updPrevRec (by decide) rfl rfl
  constructor
  · rw [h1]
    rfl
  · rw [resultPrevious, h1]
    dsimp only
    rw [h2]
